import Mathlib

/-!
# Verification of the arXiv summarization plugin core

A shallow embedding of the plugin's core functions and the proofs that
settle the specification's testable properties against them.

Strings are modelled as `List Char` (JavaScript strings are sequences of
code units; every string these functions manipulate is plain text, so the
list-of-characters view is faithful).  The JavaScript `String.replace`
calls use three regexes that are all either anchored literals or literal
substrings, so they are embedded as prefix-rewrite, first-occurrence
rewrite and suffix-strip operations on character lists.

Network, DOM and JSON libraries are external to the repository: responses
and the outcomes of `JSON.parse`/`DOMParser` on them are supplied by
explicit environment records, and each embedded operation returns, besides
its value, the trace of requests it issued, so that claims about which
requests are (not) made become statements about the trace.
-/

namespace ArxivPlugin

/-! ## Generic character-list operations mirroring the JS string methods -/

/-- First-occurrence literal replacement: the embedding of
`s.replace(/lit/, repl)` for a literal (non-global) pattern.  Scans left to
right and rewrites the leftmost occurrence of `pat`, if any. -/
def replaceFirst (pat repl : List Char) : List Char → List Char
  | [] => []
  | c :: rest =>
    if pat.isPrefixOf (c :: rest) then repl ++ (c :: rest).drop pat.length
    else c :: replaceFirst pat repl rest

/-- Global literal replacement: the embedding of `s.replace(/lit/g, repl)`.
Rewrites every non-overlapping occurrence, left to right. -/
def replaceAll (pat repl : List Char) (s : List Char) : List Char :=
  match s with
  | [] => []
  | c :: rest =>
    if h : pat.isPrefixOf (c :: rest) ∧ pat ≠ [] then
      repl ++ replaceAll pat repl ((c :: rest).drop pat.length)
    else c :: replaceAll pat repl rest
termination_by s.length
decreasing_by
  · simp only [List.length_drop, List.length_cons]
    have hlen : 1 ≤ pat.length := by
      cases pat with
      | nil => exact absurd rfl h.2
      | cons a as => exact Nat.succ_le_succ (Nat.zero_le _)
    omega
  · simp

/-- `pat` occurs as a contiguous substring of `s`. -/
def Occurs (pat s : List Char) : Prop := ∃ l r : List Char, s = l ++ pat ++ r

theorem replaceFirst_of_not_occurs {pat s : List Char} (repl : List Char)
    (h : ¬ Occurs pat s) : replaceFirst pat repl s = s := by
  induction s with
  | nil => rfl
  | cons c rest ih =>
    rw [replaceFirst]
    have hnp : pat.isPrefixOf (c :: rest) = false := by
      by_contra hb
      have hp := List.isPrefixOf_iff_prefix.mp (Bool.not_eq_false _ ▸ hb)
      obtain ⟨t, ht⟩ := hp
      exact h ⟨[], t, by simpa using ht.symm⟩
    rw [hnp]
    simp only [Bool.false_eq_true, if_false]
    have : ¬ Occurs pat rest := by
      rintro ⟨l, r, hlr⟩
      exact h ⟨c :: l, r, by simp [hlr]⟩
    rw [ih this]

theorem not_occurs_of_mem_not_mem {pat s : List Char} (ch : Char)
    (hc : ch ∈ pat) (hs : ch ∉ s) : ¬ Occurs pat s := by
  rintro ⟨l, r, rfl⟩
  exact hs (by simp [hc])

theorem isPrefixOf_append_self (l t : List Char) :
    l.isPrefixOf (l ++ t) = true := by
  induction l with
  | nil => simp [List.isPrefixOf]
  | cons c cs ih => simpa [List.isPrefixOf] using ih

theorem replaceFirst_append_self {x : List Char} (pat repl y : List Char)
    (hpat : pat ≠ [])
    (hx : ∀ c ∈ x, ∀ t : List Char, pat.isPrefixOf (c :: t) = false) :
    replaceFirst pat repl (x ++ pat ++ y) = x ++ repl ++ y := by
  induction x with
  | nil =>
    cases pat with
    | nil => exact absurd rfl hpat
    | cons p ps =>
      simp only [List.nil_append, replaceFirst, isPrefixOf_append_self]
      simp
  | cons c cs ih =>
    have hpf : pat.isPrefixOf (c :: (cs ++ pat ++ y)) = false := hx c (by simp) _
    simp only [List.cons_append, List.append_eq, replaceFirst, hpf,
      Bool.false_eq_true, if_false, List.cons.injEq, true_and]
    have := ih (fun d hd t => hx d (by simp [hd]) t)
    simpa using this

/-! ## Identifier normalizer and validator

Embeddings of `normalizeArxivUrl`, `isValidArxivUrl` (identical private
copies live in `src/summarizer.ts` and `src/metadata.ts`) and
`extractArxivId` (`src/metadata.ts`, duplicated in `src/main.ts`). -/

/-- First statement of `normalizeArxivUrl`:
`url.replace(/^http:/, 'https:')` — the regex is anchored at the start, so
this rewrites a leading `http:` to `https:` and otherwise leaves the string
alone. -/
def normStep1 (url : List Char) : List Char :=
  if ("http:").toList.isPrefixOf url then ("https:").toList ++ url.drop 5
  else url

/-- Second statement of `normalizeArxivUrl`:
`url.replace(/arxiv\.org\/pdf/, 'arxiv.org/abs')` — a non-global literal
replace, rewriting the first occurrence only. -/
def normStep2 (s : List Char) : List Char :=
  replaceFirst ("arxiv.org/pdf").toList ("arxiv.org/abs").toList s

/-- Third statement of `normalizeArxivUrl`:
`url.replace(/\.pdf$/, '')` — strips one trailing `.pdf`. -/
def normStep3 (s : List Char) : List Char :=
  if (".pdf").toList.isSuffixOf s then s.take (s.length - 4) else s

/-- `normalizeArxivUrl` from the source (identical private copies in
`src/summarizer.ts` lines 40–45 and `src/metadata.ts` lines 38–43): the
three reassignments applied in order. -/
def normalizeArxivUrl (url : List Char) : List Char :=
  normStep3 (normStep2 (normStep1 url))

/-- The 22-character abstract-page prefix the validator matches. -/
def absPrefix : List Char := ("https://arxiv.org/abs/").toList

/-- A character the JS regex `.` (no `s` flag) matches: anything but a line
terminator. -/
def jsDot (c : Char) : Bool :=
  !(c == '\n' || c == '\r' || c == '\u2028' || c == '\u2029')

/-- `isValidArxivUrl` from the source: `/^https:\/\/arxiv\.org\/abs\/.+/i`.
The anchored case-insensitive prefix match followed by at least one
non-line-terminator character. -/
def isValidArxivUrl (url : List Char) : Bool :=
  absPrefix.isPrefixOf (url.map Char.toLower) &&
    match url.drop absPrefix.length with
    | [] => false
    | c :: _ => jsDot c

/-- Matches `\d+\.\d+` at the start of `s` and returns the capture.  Both
`\d+` are greedy; since `.` is not a digit, maximal munch is exactly the
backtracking regex semantics here. -/
def matchIdAt (s : List Char) : Option (List Char) :=
  let d1 := s.takeWhile Char.isDigit
  if d1 = [] then none
  else
    match s.drop d1.length with
    | '.' :: rest =>
      let d2 := rest.takeWhile Char.isDigit
      if d2 = [] then none else some (d1 ++ '.' :: d2)
    | _ => none

/-- `extractArxivId` from the source:
`url.match(/arxiv\.org\/abs\/(\d+\.\d+)/)` returning the capture group or
`null`.  The regex engine returns the leftmost position at which the whole
pattern (literal followed by the digit group) matches; positions where only
the literal matches are skipped. -/
def extractArxivId : List Char → Option (List Char)
  | [] => none
  | c :: rest =>
    if ("arxiv.org/abs/").toList.isPrefixOf (c :: rest) then
      match matchIdAt ((c :: rest).drop ("arxiv.org/abs/").toList.length) with
      | some ident => some ident
      | none => extractArxivId rest
    else extractArxivId rest

/-- The spec's "valid input" to the normalizer: an arXiv URL in HTTP or
HTTPS scheme, PDF-path or abstract-path form, with or without a trailing
`.pdf`, whose identifier is made of digits and dots (the `YYYY.NNNNN`
shape of §3 of the spec, dot-digit strings generally). -/
def ValidInput (x : List Char) : Prop :=
  ∃ scheme seg tail ident : List Char,
    (scheme = ("http://").toList ∨ scheme = ("https://").toList) ∧
    (seg = ("pdf").toList ∨ seg = ("abs").toList) ∧
    (tail = [] ∨ tail = (".pdf").toList) ∧
    ident ≠ [] ∧ (∀ c ∈ ident, c.isDigit ∨ c = '.') ∧
    x = scheme ++ ("arxiv.org/").toList ++ seg ++ [ '/' ] ++ ident ++ tail

/-! ## Further JS string helpers used by the metadata and summary paths -/

/-- The whitespace class of the JS regex `\s` restricted to the ASCII
whitespace characters (the only ones arising in the API's XML text). -/
def jsWhitespace (c : Char) : Bool :=
  c == ' ' || c == '\t' || c == '\n' || c == '\r' || c == '\x0b' || c == '\x0c'

/-- `String.prototype.trim`: strips leading and trailing whitespace. -/
def jsTrim (s : List Char) : List Char :=
  ((s.dropWhile jsWhitespace).reverse.dropWhile jsWhitespace).reverse

/-- `s.replace(/X+/g, r)` for a character class `X` and single-character
replacement `r`: every maximal run of `X`-characters becomes one `r`. -/
def collapseRuns (p : Char → Bool) (r : Char) (s : List Char) : List Char :=
  match s with
  | [] => []
  | c :: rest =>
    if p c then r :: collapseRuns p r (rest.dropWhile p)
    else c :: collapseRuns p r rest
termination_by s.length
decreasing_by
  · exact Nat.lt_succ_of_le ((List.dropWhile_sublist p).length_le)
  · simp

/-- `Array.prototype.join(', ')`. -/
def joinCommaSpace (names : List (List Char)) : List Char :=
  List.intercalate ((", ").toList) names

/-- `a || b` on JS strings where `a` may be absent: the empty string is
falsy, so both a missing value and `""` fall back to `b`. -/
def jsOr (v : Option (List Char)) (b : List Char) : List Char :=
  match v with
  | some s => if s = [] then b else s
  | none => b

/-- The abstract-normalization chain of `fetchArxivMetadata`
(`src/metadata.ts` lines 90–95): trim, collapse newline runs, collapse
whitespace runs to single spaces, split on newlines, trim each part and
join with blank lines. -/
def abstractTransform (s : List Char) : List Char :=
  let s1 := jsTrim s
  let s2 := collapseRuns (fun c => c == '\n') '\n' s1
  let s3 := collapseRuns jsWhitespace ' ' s2
  List.intercalate ['\n', '\n'] ((s3.splitOn '\n').map jsTrim)

/-! ## Citation enricher (`src/metadata.ts` lines 121–173) -/

/-- A raw citation/reference entry as the code reads it off the
citation-registry JSON: exactly the fields the projection in
`getInfluentialPapers` touches.  `authors` is the list of the author
objects' `name` fields (the only part of them the code uses). -/
structure RawPaper where
  paperId : List Char
  title : List Char
  url : List Char
  venue : List Char
  year : Int
  abstract : List Char
  authors : List (List Char)
  arxivId : List Char
  doi : List Char
  isInfluential : Bool
  citationCount : Int
  influentialCitationCount : Int
  referenceCount : Int
  fieldsOfStudy : List (List Char)
  s2FieldsOfStudy : List (List Char)
  publicationTypes : List (List Char)
  publicationDate : List Char
  journal : List Char
  intent : List Char
deriving DecidableEq

/-- The object literal `getInfluentialPapers` builds per entry: all fields
copied, authors joined with `', '`. -/
structure InfluentialPaper where
  paperId : List Char
  title : List Char
  url : List Char
  venue : List Char
  year : Int
  abstract : List Char
  authors : List Char
  arxivId : List Char
  doi : List Char
  isInfluential : Bool
  citationCount : Int
  influentialCitationCount : Int
  referenceCount : Int
  fieldsOfStudy : List (List Char)
  s2FieldsOfStudy : List (List Char)
  publicationTypes : List (List Char)
  publicationDate : List Char
  journal : List Char
  intent : List Char
deriving DecidableEq

/-- The per-entry mapping inside `getInfluentialPapers`. -/
def projectInfluential (p : RawPaper) : InfluentialPaper :=
  { paperId := p.paperId, title := p.title, url := p.url, venue := p.venue
    year := p.year, abstract := p.abstract
    authors := joinCommaSpace p.authors
    arxivId := p.arxivId, doi := p.doi, isInfluential := p.isInfluential
    citationCount := p.citationCount
    influentialCitationCount := p.influentialCitationCount
    referenceCount := p.referenceCount, fieldsOfStudy := p.fieldsOfStudy
    s2FieldsOfStudy := p.s2FieldsOfStudy
    publicationTypes := p.publicationTypes
    publicationDate := p.publicationDate, journal := p.journal
    intent := p.intent }

/-- `getInfluentialPapers` from the source:
`papers.filter(paper => paper.isInfluential).map(paper => ({...}))`. -/
def getInfluentialPapers (papers : List RawPaper) : List InfluentialPaper :=
  (papers.filter fun p => p.isInfluential).map projectInfluential

/-- What `requestUrl({url})` can do from the caller's point of view:
fail in transit (the promise rejects) or deliver a status and a body. -/
inductive CitFetch where
  | transportError
  | response (status : Nat) (text : List Char)
deriving DecidableEq

/-- The parsed citation-registry body as the code reads it: `numCitedBy`
and `numCiting` may be absent (`|| 0`), `citations`/`references` may be
absent, in which case `.filter` on them throws. -/
structure CitationData where
  numCitedBy : Option Int
  numCiting : Option Int
  citations : Option (List RawPaper)
  references : Option (List RawPaper)

/-- Environment of one `fetchCitationInfo` call: the network outcome and
the outcome of the library `JSON.parse` on any body (`none` = throws). -/
structure CitationEnv where
  fetch : CitFetch
  parse : List Char → Option CitationData

/-- The record `fetchCitationInfo` returns. -/
structure CitationInfo where
  numCitedBy : Int
  numCiting : Int
  influentialCitations : List InfluentialPaper
  influentialReferences : List InfluentialPaper
deriving DecidableEq

/-- `fetchCitationInfo` from the source (`src/metadata.ts` lines 121–147):
the entire body is wrapped in try/catch whose catch only logs, and the
function's final statement returns the zero-valued record, so a transport
error, a non-200 status, an unparseable body or a body without
citations/references lists all yield `{0, 0, [], []}`. -/
def fetchCitationInfo (env : CitationEnv) : CitationInfo :=
  match env.fetch with
  | .transportError =>
    { numCitedBy := 0, numCiting := 0
      influentialCitations := [], influentialReferences := [] }
  | .response status text =>
    if status = 200 then
      match env.parse text with
      | none =>
        { numCitedBy := 0, numCiting := 0
          influentialCitations := [], influentialReferences := [] }
      | some data =>
        match data.citations, data.references with
        | some cs, some rs =>
          { numCitedBy := data.numCitedBy.getD 0
            numCiting := data.numCiting.getD 0
            influentialCitations := getInfluentialPapers cs
            influentialReferences := getInfluentialPapers rs }
        | _, _ =>
          { numCitedBy := 0, numCiting := 0
            influentialCitations := [], influentialReferences := [] }
    else
      { numCitedBy := 0, numCiting := 0
        influentialCitations := [], influentialReferences := [] }

/-! ## Metadata fetcher (`src/metadata.ts` lines 50–119) -/

/-- The fields the code queries out of the parsed Atom `<entry>`; each
`textContent` may be missing (optional chaining yields `undefined`). -/
structure ArxivEntry where
  title : Option (List Char)
  idLink : Option (List Char)
  published : Option (List Char)
  authorNames : List (List Char)
  summary : Option (List Char)

/-- Outcome of the bibliographic-registry request combined with the
library XML parse: transit failure, or a status together with the parsed
`<entry>` element (`none` = no entry found in the document). -/
inductive ArxivFetch where
  | transportError
  | response (status : Nat) (entry : Option ArxivEntry)

/-- Environment of one `fetchArxivMetadata` call. -/
structure MetadataEnv where
  arxiv : ArxivFetch
  citation : CitationEnv

/-- The `ArxivMetadataType` interface of the source: five required string
fields and four optional enrichment fields. -/
structure ArxivMetadataType where
  title : List Char
  paperLink : List Char
  publishDate : List Char
  authors : List Char
  abstract : List Char
  numCitedBy : Option Int
  numCiting : Option Int
  influentialCitations : Option (List InfluentialPaper)
  influentialReferences : Option (List InfluentialPaper)
deriving DecidableEq

/-- The two distinguishable errors `fetchArxivMetadata` surfaces: the
invalid-identifier message thrown before any request, and the generic
wrapper the outer catch rethrows for everything inside the try block. -/
inductive MErr where
  | invalidId
  | fetchError
deriving DecidableEq

/-- Externally visible events of a `fetchArxivMetadata` run, in order. -/
inductive MEvent where
  | arxivRequest
  | citationRequest
  | cacheStore
deriving DecidableEq

/-- The metadata object `fetchArxivMetadata` constructs on a cache miss:
the object literal of `src/metadata.ts` lines 99–105 (with its defensive
fallbacks) after the two enrichment assignments of lines 109–110.  The
`influentialCitations`/`influentialReferences` fields of the interface
are never assigned there. -/
def buildMetadata (u : List Char) (e : ArxivEntry) (ci : CitationInfo) :
    ArxivMetadataType :=
  { title := jsOr (e.title.map jsTrim) (("제목 없음").toList)
    paperLink := jsOr e.idLink u
    publishDate :=
      jsOr (e.published.map (fun s => s.takeWhile (fun c => !(c == 'T'))))
        (("날짜 없음").toList)
    authors := joinCommaSpace e.authorNames
    abstract := jsOr (e.summary.map abstractTransform) (("초록 없음").toList)
    numCitedBy := some ci.numCitedBy
    numCiting := some ci.numCiting
    influentialCitations := none
    influentialReferences := none }

/-- `fetchArxivMetadata` from the source: normalize, extract the id (throw
`invalidId` if that fails, before any request), consult the cache, else
issue the bibliographic request, build the metadata object with the
defensive fallbacks, chain the citation call, attach `numCitedBy` and
`numCiting`, store in the cache and return.  The value alongside the
result is the new cache binding (if any); the list is the event trace. -/
def fetchArxivMetadata (url : List Char)
    (cache : List Char → Option ArxivMetadataType) (env : MetadataEnv) :
    Except MErr (ArxivMetadataType × Option (List Char × ArxivMetadataType))
      × List MEvent :=
  let u := normalizeArxivUrl url
  match extractArxivId u with
  | none => (.error .invalidId, [])
  | some arxivId =>
    match cache arxivId with
    | some m => (.ok (m, none), [])
    | none =>
      match env.arxiv with
      | .transportError => (.error .fetchError, [.arxivRequest])
      | .response status entry? =>
        if status = 200 then
          match entry? with
          | none => (.error .fetchError, [.arxivRequest])
          | some e =>
            let md := buildMetadata u e (fetchCitationInfo env.citation)
            (.ok (md, some (arxivId, md)),
              [.arxivRequest, .citationRequest, .cacheStore])
        else (.error .fetchError, [.arxivRequest])

/-- Projection used to speak about what a run stored into the cache. -/
def storedEntry
    (r : Except MErr (ArxivMetadataType × Option (List Char × ArxivMetadataType))
      × List MEvent) : Option (List Char × ArxivMetadataType) :=
  match r.1 with
  | .ok p => p.2
  | .error _ => none

/-! ## Summary formatting (`formatSummary`, identical in
`src/summarizer.ts` and `src/main.ts`) -/

/-- The parsed summary object: `summary` is present when the field exists
and is a string (otherwise `.replace` throws and the catch substitutes
`JSON.stringify(result)`, carried here as `stringified`). -/
structure SummaryObj where
  summary : Option (List Char)
  stringified : List Char
deriving DecidableEq

/-- `formatSummary` from the source: unescape `\n` and `\"` sequences in
the summary (falling back to the stringified object) and embed it in the
fixed document template. -/
def formatSummary (result : SummaryObj) (url : List Char) : List Char :=
  let decoded :=
    match result.summary with
    | some s =>
      replaceAll (("\\\"").toList) (("\"").toList)
        (replaceAll (("\\n").toList) (("\n").toList) s)
    | none => result.stringified
  ("## Arxiv 논문 요약\n\n원본 URL: ").toList ++ url
    ++ ("\n\n### 요약\n").toList ++ decoded
    ++ ("\n\n---\n이 요약은 AI에 의해 생성되었으며, 부정확할 수 있습니다. 자세한 내용은 원본 논문을 참조하세요.").toList

/-! ## Polling state machine (`pollForResult`, identical in
`src/summarizer.ts` lines 129–168 and `src/main.ts` lines 133–172) -/

/-- The parsed status body: `status`, the outcome of the second
`JSON.parse` on `result.result` (`none` = throws), `url`, and the error
message. -/
structure PollBody where
  status : List Char
  result : Option SummaryObj
  url : List Char
  errorMsg : List Char
deriving DecidableEq

/-- One status response: the HTTP status and the outcome of `JSON.parse`
on the body (`none` = throws; only consulted when the status is 200). -/
structure PollStep where
  httpStatus : Nat
  parsed : Option PollBody
deriving DecidableEq

/-- Terminal outcomes of the polling loop.  Any exception inside the loop
is rethrown by its catch block and ends the machine, hence the error
constructors. -/
inductive PollOutcome where
  | success (s : List Char)
  | upstreamError (msg : List Char)
  | badStatus (code : Nat)
  | parseError
  | timeout
deriving DecidableEq

/-- The loop body of `pollForResult`, structurally recursive on the
remaining attempt budget.  Returns the outcome, the number of status
requests issued, and the list of sleep intervals in order.

Intervals are modelled as exact rationals: starting from an integer
initial interval, at most 60 iterations of `x * 1.5` capped at `10000`
keep every value an exact dyadic rational with numerator far below
`2^53`, so IEEE-754 doubles compute exactly these values and `ℚ` is a
faithful model of the JS numbers. -/
def pollForResultAux (steps : Nat → PollStep) (attempt fuel : Nat)
    (interval : ℚ) : PollOutcome × Nat × List ℚ :=
  match fuel with
  | 0 => (.timeout, 0, [])
  | fuel + 1 =>
    let r := steps attempt
    if r.httpStatus = 200 then
      match r.parsed with
      | none => (.parseError, 1, [])
      | some body =>
        if body.status = ("COMPLETED").toList then
          match body.result with
          | none => (.parseError, 1, [])
          | some obj => (.success (formatSummary obj body.url), 1, [])
        else if body.status = ("ERROR").toList then
          (.upstreamError body.errorMsg, 1, [])
        else
          let nxt :=
            pollForResultAux steps (attempt + 1) fuel
              (min (interval * (3 / 2)) 10000)
          (nxt.1, nxt.2.1 + 1, interval :: nxt.2.2)
    else (.badStatus r.httpStatus, 1, [])

/-- `pollForResult` from the source: run the loop from attempt 0 with the
given budget and initial interval (the call sites use 60 and 1000). -/
def pollForResult (steps : Nat → PollStep) (maxAttempts : Nat)
    (initialInterval : ℚ) : PollOutcome × Nat × List ℚ :=
  pollForResultAux steps 0 maxAttempts initialInterval

/-- The backoff recurrence `interval := min(interval * 1.5, 10000)`
iterated from a given initial interval. -/
def backoffIter (i : ℚ) : Nat → ℚ
  | 0 => i
  | n + 1 => min (backoffIter i n * (3 / 2)) 10000

/-! ## Precheck → submit → poll machine (`summarizeArxiv`,
`src/summarizer.ts` lines 52–127; `src/main.ts` lines 57–131 is the same
machine without the leading normalize/validate guard) -/

/-- The envelope `JSON.parse(preCheckResponse.text)` yields: its `result`
field (`[]` models an absent or otherwise falsy value) and the outcome of
the second `JSON.parse` on it. -/
structure Envelope where
  result : List Char
  inner : Option SummaryObj
deriving DecidableEq

/-- The precheck response (`throw: false`, so error statuses arrive here
rather than as exceptions): status, raw body text, and the outcome of
`JSON.parse` on the body (`none` = throws, caught and logged). -/
structure PrecheckResponse where
  status : Nat
  text : List Char
  parsed : Option Envelope
deriving DecidableEq

/-- The submit response: status and the `request_id` extracted by
`JSON.parse` (`none` = the parse throws). -/
structure SubmitResponse where
  status : Nat
  requestId : Option (List Char)
deriving DecidableEq

/-- Environment of one `summarizeArxiv` run. -/
structure SummarizeEnv where
  precheck : PrecheckResponse
  submit : SubmitResponse
  poll : Nat → PollStep

/-- The three kinds of requests `summarizeArxiv` can issue. -/
inductive Request where
  | precheck
  | submit
  | poll
deriving DecidableEq

/-- Terminal outcomes of `summarizeArxiv`. -/
inductive SummarizeOutcome where
  | invalidUrl
  | cachedHit (s : List Char)
  | submitFailed (status : Nat)
  | submitParseError
  | polled (o : PollOutcome)
deriving DecidableEq

/-- `summarizeArxiv` from the source, together with the trace of requests
it issues: normalize and validate; issue the precheck; on a 200 response
with a non-empty body whose parsed envelope has a truthy `result` that
itself parses, return the formatted result (a cache hit — no further
request); otherwise fall through to submit (non-202 is fatal), decode the
request id and poll. -/
def summarizeArxiv (url : List Char) (env : SummarizeEnv) :
    SummarizeOutcome × List Request :=
  let u := normalizeArxivUrl url
  if isValidArxivUrl u then
    let proceed : SummarizeOutcome × List Request :=
      if env.submit.status = 202 then
        match env.submit.requestId with
        | none => (.submitParseError, [.precheck, .submit])
        | some _rid =>
          let pr := pollForResult env.poll 60 1000
          (.polled pr.1, [.precheck, .submit] ++ List.replicate pr.2.1 .poll)
      else (.submitFailed env.submit.status, [.precheck, .submit])
    if env.precheck.status = 200 ∧ env.precheck.text ≠ [] then
      match env.precheck.parsed with
      | none => proceed
      | some envl =>
        if envl.result ≠ [] then
          match envl.inner with
          | some obj => (.cachedHit (formatSummary obj u), [.precheck])
          | none => proceed
        else proceed
    else proceed
  else (.invalidUrl, [])

/-! ## Document append (`insertSummary`, `src/summarizer.ts` lines
202–211 and `src/main.ts` lines 219–228) -/

/-- `insertSummary` as a transformation of the target file's content
(`none` models the null file, on which the code only posts a notice):
`newContent = content + '\n\n' + summary`. -/
def insertSummary (summary : List Char) :
    Option (List Char) → Option (List Char)
  | some content => some (content ++ ("\n\n").toList ++ summary)
  | none => none

/-! ## Concrete demonstration inputs for the witnesses -/

/-- A concrete valid input: the PDF-form HTTP-scheme URL from the spec's
end-to-end example. -/
def demoUrl : List Char := ("http://arxiv.org/pdf/2301.00001.pdf").toList

/-- A second concrete valid input, HTTPS-scheme PDF-path without suffix. -/
def demoUrl2 : List Char := ("https://arxiv.org/pdf/2301.00001").toList

/-- An old-style identifier URL: passes the validator, defeats the
extractor. -/
def oldStyleUrl : List Char := ("https://arxiv.org/abs/hep-th/9901001").toList

/-- An abstract-page URL with a new-style identifier. -/
def demoAbsUrl : List Char := ("https://arxiv.org/abs/2301.00001").toList

/-- A raw paper with the given id and influence flag (all other fields
fixed). -/
def mkRaw (ident : List Char) (infl : Bool) : RawPaper :=
  { paperId := ident, title := ident, url := ident, venue := []
    year := 2023, abstract := [], authors := [("Kim").toList]
    arxivId := ident, doi := [], isInfluential := infl
    citationCount := 1, influentialCitationCount := 0, referenceCount := 0
    fieldsOfStudy := [], s2FieldsOfStudy := [], publicationTypes := []
    publicationDate := [], journal := [], intent := [] }

/-- The spec's example population: five citations, of which the second
and fourth are influential. -/
def demoPapers : List RawPaper :=
  [mkRaw (("p1").toList) false, mkRaw (("p2").toList) true,
   mkRaw (("p3").toList) false, mkRaw (("p4").toList) true,
   mkRaw (("p5").toList) false]

/-- A citation environment whose registry answers 200 with one
influential citation. -/
def demoCitEnv : CitationEnv :=
  { fetch := .response 200 (("body").toList)
    parse := fun _ => some
      { numCitedBy := some 7, numCiting := some 3
        citations := some [mkRaw (("p2").toList) true]
        references := some [] } }

/-- A citation environment whose request fails in transit. -/
def transportCitEnv : CitationEnv :=
  { fetch := .transportError, parse := fun _ => none }

/-- A parsed bibliographic entry for the demo paper. -/
def demoEntry : ArxivEntry :=
  { title := some (("Example Paper").toList)
    idLink := some (("https://arxiv.org/abs/2301.00001").toList)
    published := some (("2023-01-01T00:00:00Z").toList)
    authorNames := [("Kim").toList]
    summary := some (("An abstract.").toList) }

/-- A metadata environment where both registries answer. -/
def demoMetaEnv : MetadataEnv :=
  { arxiv := .response 200 (some demoEntry), citation := demoCitEnv }

/-- A status response carrying a recognized non-terminal status. -/
def pendingStep : PollStep :=
  { httpStatus := 200
    parsed := some { status := ("PENDING").toList, result := none
                     url := [], errorMsg := [] } }

/-- A parsed cached summary object. -/
def demoSummaryObj : SummaryObj :=
  { summary := some (("hello").toList), stringified := ("raw").toList }

/-- An environment whose precheck hits the server-side result cache. -/
def demoHitEnv : SummarizeEnv :=
  { precheck :=
      { status := 200, text := ("x").toList
        parsed := some { result := ("r").toList, inner := some demoSummaryObj } }
    submit := { status := 202, requestId := some (("id1").toList) }
    poll := fun _ => pendingStep }

/-- The same environment with a precheck miss (non-200, empty body). -/
def demoMissEnv : SummarizeEnv :=
  { precheck := { status := 500, text := [], parsed := none }
    submit := { status := 202, requestId := some (("id1").toList) }
    poll := fun _ => pendingStep }

/-! ## Lemmas about the normalizer on valid inputs -/

theorem isPrefixOf_append_of_le {p x : List Char} (y : List Char)
    (h : p.length ≤ x.length) : p.isPrefixOf (x ++ y) = p.isPrefixOf x := by
  induction p generalizing x with
  | nil => simp [List.isPrefixOf]
  | cons a as ih =>
    cases x with
    | nil => exact absurd h (by simp)
    | cons b bs =>
      simp only [List.cons_append, List.isPrefixOf, List.append_eq]
      rw [ih (by simpa using h)]

theorem isPrefixOf_cons_false {a c : Char} (as t : List Char) (hne : a ≠ c) :
    (a :: as).isPrefixOf (c :: t) = false := by
  simp [List.isPrefixOf, hne]

theorem digitDot_not_f {ident : List Char}
    (h : ∀ c ∈ ident, c.isDigit ∨ c = '.') : 'f' ∉ ident := by
  intro hmem
  rcases h 'f' hmem with hd | hd
  · exact absurd hd (by decide)
  · exact absurd hd (by decide)

/-- The literal `arxiv.org/pdf` does not occur in
`https://arxiv.org/abs/<ident><tail>` when `ident` is `f`-free and the tail
is empty or `.pdf`: every `f` of such a string is either absent or the very
last character, where the pattern cannot end (its fourth-from-last
character is `/`, the string's is `.`). -/
theorem no_occurs_patPdf {ident tl : List Char} (hf : 'f' ∉ ident)
    (ht : tl = [] ∨ tl = (".pdf").toList) :
    ¬ Occurs (("arxiv.org/pdf").toList) (absPrefix ++ ident ++ tl) := by
  rcases ht with rfl | rfl
  · apply not_occurs_of_mem_not_mem 'f' (by decide)
    simp only [List.append_nil, List.mem_append]
    rintro (h | h)
    · exact absurd h (by decide)
    · exact hf h
  · rintro ⟨l, r, heq⟩
    cases r with
    | nil =>
      have hrev := congrArg List.reverse heq
      rw [List.append_nil] at hrev
      simp only [List.reverse_append] at hrev
      rw [show ((".pdf").toList).reverse = ['f', 'd', 'p', '.'] from by decide,
        show (("arxiv.org/pdf").toList).reverse
          = ['f', 'd', 'p', '/', 'g', 'r', 'o', '.', 'v', 'i', 'x', 'r', 'a']
          from by decide] at hrev
      have h3 := congrArg (fun t : List Char => t[3]?) hrev
      simp only [List.cons_append, List.getElem?_cons_succ,
        List.getElem?_cons_zero] at h3
      exact absurd (Option.some_inj.mp h3) (by decide)
    | cons c r' =>
      have hdl := congrArg List.dropLast heq
      rw [List.dropLast_append_of_ne_nil (l := (".pdf").toList)
          (absPrefix ++ ident) (by decide),
        show ((".pdf").toList).dropLast = ['.', 'p', 'd'] from by decide] at hdl
      rw [List.dropLast_append_of_ne_nil (l := c :: r')
          (l ++ ("arxiv.org/pdf").toList) (by simp)] at hdl
      have hmem : 'f' ∈ (absPrefix ++ ident) ++ ['.', 'p', 'd'] := by
        rw [hdl]
        simp only [List.mem_append]
        left; right
        decide
      simp only [List.mem_append] at hmem
      rcases hmem with (h | h) | h
      · exact absurd h (by decide)
      · exact hf h
      · exact absurd h (by decide)

theorem isSuffixOf_pdf_false {ident : List Char} (hf : 'f' ∉ ident)
    (hne : ident ≠ []) :
    (".pdf").toList.isSuffixOf (absPrefix ++ ident) = false := by
  obtain ⟨d, ds, hds⟩ :=
    List.exists_cons_of_ne_nil (l := ident.reverse) (by simpa using hne)
  have hd : d ∈ ident := by
    have : d ∈ ident.reverse := by rw [hds]; simp
    simpa using this
  have hfd : ('f' : Char) ≠ d := fun e => hf (e ▸ hd)
  simp only [List.isSuffixOf, List.reverse_append, hds]
  rw [show ((".pdf").toList).reverse = 'f' :: ['d', 'p', '.'] from by decide,
    List.cons_append]
  exact isPrefixOf_cons_false _ _ hfd

theorem step1_http (t : List Char) :
    normStep1 (("http://").toList ++ t) = ("https://").toList ++ t := by
  rw [normStep1,
    show ("http://").toList = ("http:").toList ++ ['/', '/'] from by decide,
    List.append_assoc, isPrefixOf_append_self, if_pos rfl,
    List.drop_left' (by decide), ← List.append_assoc,
    show ("https:").toList ++ ['/', '/'] = ("https://").toList from by decide]

theorem step1_https (t : List Char) :
    normStep1 (("https://").toList ++ t) = ("https://").toList ++ t := by
  rw [normStep1, isPrefixOf_append_of_le t (by decide),
    show ("http:").toList.isPrefixOf (("https://").toList) = false
      from by decide]
  simp

theorem step1_absPrefix (t : List Char) :
    normStep1 (absPrefix ++ t) = absPrefix ++ t := by
  rw [normStep1, isPrefixOf_append_of_le t (by decide),
    show ("http:").toList.isPrefixOf absPrefix = false from by decide]
  simp

theorem step2_pdf (t : List Char) :
    normStep2 (("https://arxiv.org/pdf/").toList ++ t) = absPrefix ++ t := by
  have hside : ∀ c ∈ ("https://").toList, ∀ u : List Char,
      ("arxiv.org/pdf").toList.isPrefixOf (c :: u) = false := by
    intro c hc u
    rw [show ("arxiv.org/pdf").toList = 'a' :: ("rxiv.org/pdf").toList
      from by decide]
    apply isPrefixOf_cons_false
    rw [show ("https://").toList = ['h', 't', 't', 'p', 's', ':', '/', '/']
      from by decide] at hc
    fin_cases hc <;> decide
  rw [normStep2,
    show ("https://arxiv.org/pdf/").toList
      = (("https://").toList ++ ("arxiv.org/pdf").toList) ++ ['/']
      from by decide,
    List.append_assoc (("https://").toList ++ ("arxiv.org/pdf").toList)
      ['/'] t,
    List.singleton_append,
    replaceFirst_append_self _ _ _ (by decide) hside,
    ← List.singleton_append, ← List.append_assoc,
    show (("https://").toList ++ ("arxiv.org/abs").toList) ++ ['/']
      = absPrefix from by decide]

theorem step2_abs {ident tl : List Char} (hf : 'f' ∉ ident)
    (ht : tl = [] ∨ tl = (".pdf").toList) :
    normStep2 (absPrefix ++ ident ++ tl) = absPrefix ++ ident ++ tl := by
  rw [normStep2]
  exact replaceFirst_of_not_occurs _ (no_occurs_patPdf hf ht)

theorem step3_strip (a : List Char) :
    normStep3 (a ++ (".pdf").toList) = a := by
  rw [normStep3]
  have hsuf : (".pdf").toList.isSuffixOf (a ++ (".pdf").toList) = true := by
    simp only [List.isSuffixOf, List.reverse_append]
    exact isPrefixOf_append_self _ _
  rw [hsuf, if_pos rfl, List.take_left' (by simp)]

theorem step3_keep {ident : List Char} (hf : 'f' ∉ ident) (hne : ident ≠ []) :
    normStep3 (absPrefix ++ ident) = absPrefix ++ ident := by
  rw [normStep3, isSuffixOf_pdf_false hf hne]
  simp

theorem normalize_fixed {ident : List Char} (hf : 'f' ∉ ident)
    (hne : ident ≠ []) :
    normalizeArxivUrl (absPrefix ++ ident) = absPrefix ++ ident := by
  simp only [normalizeArxivUrl]
  rw [step1_absPrefix]
  have h2 : normStep2 (absPrefix ++ ident) = absPrefix ++ ident := by
    have h : normStep2 (absPrefix ++ ident ++ ([] : List Char))
        = absPrefix ++ ident ++ ([] : List Char) := step2_abs hf (Or.inl rfl)
    rw [List.append_nil] at h
    exact h
  rw [h2]
  exact step3_keep hf hne

/-- On every valid input the normalizer produces exactly
`https://arxiv.org/abs/<ident>`. -/
theorem normalize_valid_input {x : List Char} (h : ValidInput x) :
    ∃ ident : List Char, ident ≠ [] ∧ (∀ c ∈ ident, c.isDigit ∨ c = '.') ∧
      normalizeArxivUrl x = absPrefix ++ ident := by
  obtain ⟨scheme, seg, tl, ident, hs, hg, ht, hne, hdd, rfl⟩ := h
  have hf : 'f' ∉ ident := digitDot_not_f hdd
  refine ⟨ident, hne, hdd, ?_⟩
  have hstep3 : normStep3 (absPrefix ++ (ident ++ tl)) = absPrefix ++ ident := by
    rcases ht with rfl | rfl
    · rw [List.append_nil]
      exact step3_keep hf hne
    · rw [← List.append_assoc]
      exact step3_strip _
  rcases hs with rfl | rfl <;> rcases hg with rfl | rfl
  · have hx : ("http://").toList ++ ("arxiv.org/").toList ++ ("pdf").toList
        ++ ['/'] ++ ident ++ tl
        = ("http://").toList ++ (("arxiv.org/pdf/").toList ++ (ident ++ tl)) := by
      rw [show ("arxiv.org/pdf/").toList
        = ("arxiv.org/").toList ++ ("pdf").toList ++ ['/'] from by decide]
      simp [List.append_assoc]
    simp only [normalizeArxivUrl]
    rw [hx, step1_http, ← List.append_assoc,
      show ("https://").toList ++ ("arxiv.org/pdf/").toList
        = ("https://arxiv.org/pdf/").toList from by decide,
      step2_pdf]
    exact hstep3
  · have hx : ("http://").toList ++ ("arxiv.org/").toList ++ ("abs").toList
        ++ ['/'] ++ ident ++ tl
        = ("http://").toList ++ (("arxiv.org/abs/").toList ++ (ident ++ tl)) := by
      rw [show ("arxiv.org/abs/").toList
        = ("arxiv.org/").toList ++ ("abs").toList ++ ['/'] from by decide]
      simp [List.append_assoc]
    simp only [normalizeArxivUrl]
    rw [hx, step1_http, ← List.append_assoc,
      show ("https://").toList ++ ("arxiv.org/abs/").toList = absPrefix
        from by decide]
    rw [show absPrefix ++ (ident ++ tl) = absPrefix ++ ident ++ tl
        from by rw [List.append_assoc],
      step2_abs hf ht, List.append_assoc]
    exact hstep3
  · have hx : ("https://").toList ++ ("arxiv.org/").toList ++ ("pdf").toList
        ++ ['/'] ++ ident ++ tl
        = ("https://").toList ++ (("arxiv.org/pdf/").toList ++ (ident ++ tl)) := by
      rw [show ("arxiv.org/pdf/").toList
        = ("arxiv.org/").toList ++ ("pdf").toList ++ ['/'] from by decide]
      simp [List.append_assoc]
    simp only [normalizeArxivUrl]
    rw [hx, step1_https, ← List.append_assoc,
      show ("https://").toList ++ ("arxiv.org/pdf/").toList
        = ("https://arxiv.org/pdf/").toList from by decide,
      step2_pdf]
    exact hstep3
  · have hx : ("https://").toList ++ ("arxiv.org/").toList ++ ("abs").toList
        ++ ['/'] ++ ident ++ tl
        = ("https://").toList ++ (("arxiv.org/abs/").toList ++ (ident ++ tl)) := by
      rw [show ("arxiv.org/abs/").toList
        = ("arxiv.org/").toList ++ ("abs").toList ++ ['/'] from by decide]
      simp [List.append_assoc]
    simp only [normalizeArxivUrl]
    rw [hx, step1_https, ← List.append_assoc,
      show ("https://").toList ++ ("arxiv.org/abs/").toList = absPrefix
        from by decide]
    rw [show absPrefix ++ (ident ++ tl) = absPrefix ++ ident ++ tl
        from by rw [List.append_assoc],
      step2_abs hf ht, List.append_assoc]
    exact hstep3

theorem jsDot_of_digitDot {c : Char} (h : c.isDigit ∨ c = '.') :
    jsDot c = true := by
  rcases h with hd | rfl
  · have e1 : (c == '\n') = false := by
      rw [beq_eq_false_iff_ne]; rintro rfl; exact absurd hd (by decide)
    have e2 : (c == '\r') = false := by
      rw [beq_eq_false_iff_ne]; rintro rfl; exact absurd hd (by decide)
    have e3 : (c == '\u2028') = false := by
      rw [beq_eq_false_iff_ne]; rintro rfl; exact absurd hd (by decide)
    have e4 : (c == '\u2029') = false := by
      rw [beq_eq_false_iff_ne]; rintro rfl; exact absurd hd (by decide)
    simp [jsDot, e1, e2, e3, e4]
  · decide

/-- C7: the identifier normalizer is idempotent on every valid input:
applying `normalizeArxivUrl` twice equals applying it once. -/
theorem normalize_idempotent {x : List Char} (h : ValidInput x) :
    normalizeArxivUrl (normalizeArxivUrl x) = normalizeArxivUrl x := by
  obtain ⟨ident, hne, hdd, heq⟩ := normalize_valid_input h
  rw [heq]
  exact normalize_fixed (digitDot_not_f hdd) hne

theorem demoUrl_valid : ValidInput demoUrl :=
  ⟨("http://").toList, ("pdf").toList, (".pdf").toList, ("2301.00001").toList,
    Or.inl rfl, Or.inl rfl, Or.inr rfl, by decide, by decide, by decide⟩

/-- Witness for C7 at the concrete input `http://arxiv.org/pdf/2301.00001.pdf`. -/
theorem normalize_idempotent_witness :
    normalizeArxivUrl demoUrl = ("https://arxiv.org/abs/2301.00001").toList ∧
    normalizeArxivUrl (normalizeArxivUrl demoUrl) = normalizeArxivUrl demoUrl :=
  ⟨by decide, normalize_idempotent demoUrl_valid⟩

/-- C8: for every PDF-form or HTTP-form arXiv URL, normalization yields a
URL the validator accepts. -/
theorem validate_normalize {x : List Char} (h : ValidInput x) :
    isValidArxivUrl (normalizeArxivUrl x) = true := by
  obtain ⟨ident, hne, hdd, heq⟩ := normalize_valid_input h
  rw [heq]
  obtain ⟨c, cs, rfl⟩ := List.exists_cons_of_ne_nil hne
  have h1 : (absPrefix ++ c :: cs).map Char.toLower
      = absPrefix ++ (c :: cs).map Char.toLower := by
    rw [List.map_append,
      show absPrefix.map Char.toLower = absPrefix from by decide]
  have h2 : (absPrefix ++ c :: cs).drop absPrefix.length = c :: cs :=
    List.drop_left _ _
  simp only [isValidArxivUrl, h1, h2, List.map_cons, isPrefixOf_append_self,
    Bool.true_and]
  exact jsDot_of_digitDot (hdd c (by simp))

theorem demoUrl2_valid : ValidInput demoUrl2 :=
  ⟨("https://").toList, ("pdf").toList, [], ("2301.00001").toList,
    Or.inr rfl, Or.inl rfl, Or.inl rfl, by decide, by decide, by decide⟩

/-- Witness for C8 at the concrete input `https://arxiv.org/pdf/2301.00001`. -/
theorem validate_normalize_witness :
    normalizeArxivUrl demoUrl2 = ("https://arxiv.org/abs/2301.00001").toList ∧
    isValidArxivUrl (normalizeArxivUrl demoUrl2) = true :=
  ⟨by decide, validate_normalize demoUrl2_valid⟩

/-! ## C9, C10, C6, C4 -/

/-- C9: the URL validator and the identifier extractor disagree:
`isValidArxivUrl` accepts every `https://arxiv.org/abs/<suffix>` URL with
a non-empty suffix (any URL character, i.e. any non-line-terminator, after
the prefix), but `extractArxivId` returns none unless a `digits.digits`
group follows the literal; hence the old-style URL
`https://arxiv.org/abs/hep-th/9901001` passes validation yet makes
`fetchArxivMetadata` fail with the invalid-identifier error before any
request is issued (empty trace). -/
theorem validator_extractor_disagree :
    (∀ (c : Char) (rest : List Char), jsDot c = true →
      isValidArxivUrl (absPrefix ++ c :: rest) = true) ∧
    isValidArxivUrl oldStyleUrl = true ∧
    extractArxivId oldStyleUrl = none ∧
    ∀ (cache : List Char → Option ArxivMetadataType) (env : MetadataEnv),
      fetchArxivMetadata oldStyleUrl cache env = (.error .invalidId, []) := by
  refine ⟨?_, by decide, by decide, ?_⟩
  · intro c rest hc
    have h1 : (absPrefix ++ c :: rest).map Char.toLower
        = absPrefix ++ (c :: rest).map Char.toLower := by
      rw [List.map_append,
        show absPrefix.map Char.toLower = absPrefix from by decide]
    have h2 : (absPrefix ++ c :: rest).drop absPrefix.length = c :: rest :=
      List.drop_left _ _
    simp only [isValidArxivUrl, h1, h2, List.map_cons, isPrefixOf_append_self,
      Bool.true_and]
    exact hc
  · intro cache env
    simp only [fetchArxivMetadata,
      show normalizeArxivUrl oldStyleUrl = oldStyleUrl from by decide,
      show extractArxivId oldStyleUrl = none from by decide]

/-- Witness for C9: the validator accepts the old-style URL (instantiating
the universally quantified part at its suffix), and the metadata fetch on
it fails before any request. -/
theorem validator_extractor_disagree_witness :
    isValidArxivUrl (absPrefix ++ 'h' :: (("ep-th/9901001").toList)) = true ∧
    fetchArxivMetadata oldStyleUrl (fun _ => none) demoMetaEnv
      = (.error .invalidId, []) :=
  ⟨validator_extractor_disagree.1 'h' (("ep-th/9901001").toList) (by decide),
   validator_extractor_disagree.2.2.2 (fun _ => none) demoMetaEnv⟩

/-- C10: `insertSummary` on a non-null file is a pure append at the
document boundary: the new content is the old content, two newlines and
the summary; in particular the old content survives unchanged as a
prefix. -/
theorem insertSummary_appends (content summary : List Char) :
    insertSummary summary (some content)
      = some (content ++ ("\n\n").toList ++ summary) ∧
    (insertSummary summary (some content)).map
        (fun nc => nc.take content.length)
      = some content := by
  refine ⟨rfl, ?_⟩
  simp only [insertSummary, Option.map_some']
  rw [List.append_assoc, List.take_left]

/-- C6: `getInfluentialPapers` selects exactly the entries whose
`isInfluential` flag is true, in their original relative order (the
selected raw entries form a sublist of the input), applying only the
field projection and no other filtering or scoring. -/
theorem influential_selection (ps : List RawPaper) :
    getInfluentialPapers ps
      = List.map projectInfluential (List.filter (fun p => p.isInfluential) ps)
    ∧ List.Sublist (List.filter (fun p => p.isInfluential) ps) ps
    ∧ (∀ p, p ∈ ps → p.isInfluential = true →
        projectInfluential p ∈ getInfluentialPapers ps)
    ∧ (∀ q, q ∈ getInfluentialPapers ps →
        ∃ p, p ∈ ps ∧ p.isInfluential = true ∧ q = projectInfluential p) := by
  refine ⟨rfl, List.filter_sublist ps, ?_, ?_⟩
  · intro p hp hinf
    simp only [getInfluentialPapers, List.mem_map]
    exact ⟨p, List.mem_filter.mpr ⟨hp, hinf⟩, rfl⟩
  · intro q hq
    simp only [getInfluentialPapers, List.mem_map] at hq
    obtain ⟨p, hp, hq⟩ := hq
    have hm := List.mem_filter.mp hp
    exact ⟨p, hm.1, hm.2, hq.symm⟩

/-- Witness for C6 at the spec's example population: five citations of
which exactly the second and fourth are influential. -/
theorem influential_selection_witness :
    getInfluentialPapers demoPapers
      = [projectInfluential (mkRaw (("p2").toList) true),
         projectInfluential (mkRaw (("p4").toList) true)] ∧
    getInfluentialPapers demoPapers
      = List.map projectInfluential
          (List.filter (fun p => p.isInfluential) demoPapers) :=
  ⟨rfl, (influential_selection demoPapers).1⟩

/-- C4: a transport failure, a non-success status or an unparseable body
from the citation registry makes `fetchCitationInfo` return the
zero-valued record rather than raising. -/
theorem citation_failures_zero (env : CitationEnv)
    (h : env.fetch = .transportError ∨
      (∃ st text, env.fetch = .response st text ∧ st ≠ 200) ∨
      (∃ text, env.fetch = .response 200 text ∧ env.parse text = none)) :
    fetchCitationInfo env
      = { numCitedBy := 0, numCiting := 0
          influentialCitations := [], influentialReferences := [] } := by
  rcases h with h | ⟨st, text, h, hst⟩ | ⟨text, h, hp⟩
  · simp [fetchCitationInfo, h]
  · simp [fetchCitationInfo, h, hst]
  · simp [fetchCitationInfo, h, hp]

/-- Witness for C4 at a concrete transport failure. -/
theorem citation_failures_zero_witness :
    fetchCitationInfo transportCitEnv
      = { numCitedBy := 0, numCiting := 0
          influentialCitations := [], influentialReferences := [] } :=
  citation_failures_zero transportCitEnv (Or.inl rfl)

/-! ## C5 -/

/-- C5 counterexample: with the citation registry returning an influential
citation, the metadata entry that `fetchArxivMetadata` caches still has no
`influentialCitations`/`influentialReferences` — the enricher's lists are
computed and then dropped, so the cached record does not carry all four
enrichment fields as the claim states. -/
theorem cache_missing_influential :
    (fetchCitationInfo demoCitEnv).influentialCitations ≠ [] ∧
    (storedEntry (fetchArxivMetadata demoAbsUrl (fun _ => none) demoMetaEnv)).map
        (fun kv => (kv.2.influentialCitations, kv.2.influentialReferences))
      = some (none, none) := by
  exact ⟨by decide, rfl⟩

/-- C5 (amended): on a cache miss with a successful bibliographic
response, `fetchArxivMetadata` stores the entry only after the Citation
Enricher call, and the stored record carries the two count fields from
that call — but not the influential-citations or influential-references
lists, which are always absent. -/
theorem cache_after_enrichment (url : List Char)
    (cache : List Char → Option ArxivMetadataType) (env : MetadataEnv)
    (arxivId : List Char) (e : ArxivEntry)
    (hid : extractArxivId (normalizeArxivUrl url) = some arxivId)
    (hmiss : cache arxivId = none)
    (hok : env.arxiv = .response 200 (some e)) :
    fetchArxivMetadata url cache env
      = (.ok (buildMetadata (normalizeArxivUrl url) e
                (fetchCitationInfo env.citation),
              some (arxivId,
                buildMetadata (normalizeArxivUrl url) e
                  (fetchCitationInfo env.citation))),
         [.arxivRequest, .citationRequest, .cacheStore]) ∧
    (buildMetadata (normalizeArxivUrl url) e
        (fetchCitationInfo env.citation)).numCitedBy
      = some (fetchCitationInfo env.citation).numCitedBy ∧
    (buildMetadata (normalizeArxivUrl url) e
        (fetchCitationInfo env.citation)).numCiting
      = some (fetchCitationInfo env.citation).numCiting ∧
    (buildMetadata (normalizeArxivUrl url) e
        (fetchCitationInfo env.citation)).influentialCitations = none ∧
    (buildMetadata (normalizeArxivUrl url) e
        (fetchCitationInfo env.citation)).influentialReferences = none := by
  refine ⟨?_, rfl, rfl, rfl, rfl⟩
  simp only [fetchArxivMetadata, hid, hmiss, hok, if_pos rfl, if_true]

/-- Witness for the amended C5 at the demo inputs. -/
theorem cache_after_enrichment_witness :
    fetchArxivMetadata demoAbsUrl (fun _ => none) demoMetaEnv
      = (.ok (buildMetadata (normalizeArxivUrl demoAbsUrl) demoEntry
                (fetchCitationInfo demoMetaEnv.citation),
              some ((("2301.00001").toList),
                buildMetadata (normalizeArxivUrl demoAbsUrl) demoEntry
                  (fetchCitationInfo demoMetaEnv.citation))),
         [.arxivRequest, .citationRequest, .cacheStore]) ∧
    (buildMetadata (normalizeArxivUrl demoAbsUrl) demoEntry
        (fetchCitationInfo demoMetaEnv.citation)).influentialCitations
      = none :=
  ⟨(cache_after_enrichment demoAbsUrl (fun _ => none) demoMetaEnv
      (("2301.00001").toList) demoEntry (by decide) rfl rfl).1,
   (cache_after_enrichment demoAbsUrl (fun _ => none) demoMetaEnv
      (("2301.00001").toList) demoEntry (by decide) rfl rfl).2.2.2.1⟩

/-! ## C3, C2: the polling loop -/

theorem pollAux_timeout (steps : Nat → PollStep) (fuel : Nat) :
    ∀ (start : Nat) (interval : ℚ),
    (∀ n, start ≤ n → n < start + fuel →
      (steps n).httpStatus = 200 ∧
      ∃ b, (steps n).parsed = some b ∧
        b.status ≠ ("COMPLETED").toList ∧ b.status ≠ ("ERROR").toList) →
    (pollForResultAux steps start fuel interval).1 = PollOutcome.timeout ∧
    (pollForResultAux steps start fuel interval).2.1 = fuel := by
  induction fuel with
  | zero => intro start interval _; exact ⟨rfl, rfl⟩
  | succ fuel ih =>
    intro start interval h
    obtain ⟨h200, b, hb, hnc, hne⟩ := h start (Nat.le_refl _) (by omega)
    have ihc := ih (start + 1) (min (interval * (3 / 2)) 10000)
      (fun n h1 h2 => h n (by omega) (by omega))
    simp only [pollForResultAux, hb, if_pos h200, if_neg hnc, if_neg hne]
    exact ⟨ihc.1, by rw [ihc.2]⟩

theorem backoffIter_shift (i : ℚ) (n : Nat) :
    backoffIter i (n + 1) = backoffIter (min (i * (3 / 2)) 10000) n := by
  induction n with
  | zero => rfl
  | succ n ih =>
    show min (backoffIter i (n + 1) * (3 / 2)) 10000
      = min (backoffIter (min (i * (3 / 2)) 10000) n * (3 / 2)) 10000
    rw [ih]

/-- The sleep trace of any run of the loop is an initial segment of the
backoff recurrence started at the initial interval. -/
theorem pollAux_sleeps (steps : Nat → PollStep) (fuel : Nat) :
    ∀ (start : Nat) (interval : ℚ),
    ∃ k, (pollForResultAux steps start fuel interval).2.2
      = (List.range k).map (backoffIter interval) := by
  induction fuel with
  | zero => intro start interval; exact ⟨0, rfl⟩
  | succ fuel ih =>
    intro start interval
    by_cases h200 : (steps start).httpStatus = 200
    · cases hb : (steps start).parsed with
      | none =>
        exact ⟨0, by simp only [pollForResultAux, hb, if_pos h200,
          List.range_zero, List.map_nil]⟩
      | some b =>
        by_cases hc : b.status = ("COMPLETED").toList
        · cases hr : b.result with
          | none =>
            exact ⟨0, by
              simp only [pollForResultAux, hb, hr, if_pos h200, if_pos hc,
                List.range_zero, List.map_nil]⟩
          | some obj =>
            exact ⟨0, by
              simp only [pollForResultAux, hb, hr, if_pos h200, if_pos hc,
                List.range_zero, List.map_nil]⟩
        · by_cases he : b.status = ("ERROR").toList
          · exact ⟨0, by
              simp only [pollForResultAux, hb, if_pos h200, if_neg hc,
                if_pos he, List.range_zero, List.map_nil]⟩
          · obtain ⟨k, hk⟩ := ih (start + 1) (min (interval * (3 / 2)) 10000)
            refine ⟨k + 1, ?_⟩
            simp only [pollForResultAux, hb, if_pos h200, if_neg hc, if_neg he]
            rw [hk, List.range_succ_eq_map, List.map_cons, List.map_map]
            show (backoffIter interval 0)
                :: (List.range k).map (backoffIter (min (interval * (3 / 2)) 10000))
              = backoffIter interval 0
                :: (List.range k).map (backoffIter interval ∘ Nat.succ)
            congr 1
            apply List.map_congr_left
            intro n _
            show backoffIter (min (interval * (3 / 2)) 10000) n
              = backoffIter interval (n + 1)
            exact (backoffIter_shift interval n).symm
    · exact ⟨0, by simp only [pollForResultAux, if_neg h200,
          List.range_zero, List.map_nil]⟩

/-- C3: if every status response within the budget is a 200 whose parsed
body carries a status other than COMPLETED or ERROR, the loop issues
exactly `maxAttempts` status requests and terminates with Timeout. -/
theorem poll_timeout (steps : Nat → PollStep) (maxAttempts : Nat)
    (initialInterval : ℚ)
    (h : ∀ n, n < maxAttempts →
      (steps n).httpStatus = 200 ∧
      ∃ b, (steps n).parsed = some b ∧
        b.status ≠ ("COMPLETED").toList ∧ b.status ≠ ("ERROR").toList) :
    (pollForResult steps maxAttempts initialInterval).1 = PollOutcome.timeout ∧
    (pollForResult steps maxAttempts initialInterval).2.1 = maxAttempts :=
  pollAux_timeout steps maxAttempts 0 initialInterval
    (fun n _ h2 => h n (by omega))

/-- Witness for C3: three all-PENDING responses, budget 3. -/
theorem poll_timeout_witness :
    (pollForResult (fun _ => pendingStep) 3 1000).1 = PollOutcome.timeout ∧
    (pollForResult (fun _ => pendingStep) 3 1000).2.1 = 3 :=
  poll_timeout (fun _ => pendingStep) 3 1000
    (fun n _ => ⟨rfl, ⟨_, rfl, by decide, by decide⟩⟩)

/-- C2 counterexample: in the all-PENDING run with budget 6 and initial
interval 1000 the fifth sleep interval is 5062.5 and the sixth is
7593.75 — the code keeps `Math.min(interval * 1.5, 10000)` as an exact
float and never truncates to the integers 5062 and 7593 the claim
lists. -/
theorem poll_backoff_counterexample :
    (pollForResult (fun _ => pendingStep) 6 1000).2.2[4]?
      = some (10125 / 2) ∧
    (pollForResult (fun _ => pendingStep) 6 1000).2.2[5]?
      = some (30375 / 4) ∧
    (10125 / 2 : ℚ) ≠ 5062 ∧ (30375 / 4 : ℚ) ≠ 7593 := by
  obtain ⟨k, hk⟩ := pollAux_sleeps (fun _ => pendingStep) 6 0 1000
  have hlen : (pollForResultAux (fun _ => pendingStep) 0 6 1000).2.2.length = 6 :=
    rfl
  have hk6 : k = 6 := by
    have := congrArg List.length hk
    simp only [List.length_map, List.length_range, hlen] at this
    omega
  subst hk6
  have h4 : backoffIter 1000 4 = 10125 / 2 := by
    simp only [backoffIter]
    norm_num [min_def]
  have h5 : backoffIter 1000 5 = 30375 / 4 := by
    simp only [backoffIter]
    norm_num [min_def]
  refine ⟨?_, ?_, by norm_num, by norm_num⟩
  · rw [show (pollForResult (fun _ => pendingStep) 6 1000).2.2
        = (pollForResultAux (fun _ => pendingStep) 0 6 1000).2.2 from rfl, hk]
    simp [List.getElem?_map, h4]
  · rw [show (pollForResult (fun _ => pendingStep) 6 1000).2.2
        = (pollForResultAux (fun _ => pendingStep) 0 6 1000).2.2 from rfl, hk]
    simp [List.getElem?_map, h5]

/-- C2 (amended): in every run with initial interval 1000, the sleep
intervals follow `interval_{n+1} = min(interval_n * 1.5, 10000)` exactly,
with no integer truncation: the sequence is 1000, 1500, 2250, 3375,
5062.5, 7593.75 and then 10000 forever. -/
theorem poll_backoff (steps : Nat → PollStep) (maxAttempts : Nat) :
    (∀ i, i < (pollForResult steps maxAttempts 1000).2.2.length →
      (pollForResult steps maxAttempts 1000).2.2[i]?
        = some (backoffIter 1000 i)) ∧
    (∀ n, backoffIter 1000 (n + 1)
      = min (backoffIter 1000 n * (3 / 2)) 10000) ∧
    backoffIter 1000 0 = 1000 ∧ backoffIter 1000 1 = 1500 ∧
    backoffIter 1000 2 = 2250 ∧ backoffIter 1000 3 = 3375 ∧
    backoffIter 1000 4 = 10125 / 2 ∧ backoffIter 1000 5 = 30375 / 4 ∧
    ∀ n, 6 ≤ n → backoffIter 1000 n = 10000 := by
  obtain ⟨k, hk⟩ := pollAux_sleeps steps maxAttempts 0 1000
  have h6 : backoffIter 1000 6 = 10000 := by
    simp only [backoffIter]
    norm_num [min_def]
  refine ⟨?_, fun n => rfl, by norm_num [backoffIter],
    by simp only [backoffIter]; norm_num [min_def],
    by simp only [backoffIter]; norm_num [min_def],
    by simp only [backoffIter]; norm_num [min_def],
    by simp only [backoffIter]; norm_num [min_def],
    by simp only [backoffIter]; norm_num [min_def], ?_⟩
  · intro i hi
    rw [show (pollForResult steps maxAttempts 1000).2.2
        = (pollForResultAux steps 0 maxAttempts 1000).2.2 from rfl, hk] at hi ⊢
    simp only [List.length_map, List.length_range] at hi
    simp [List.getElem?_map, List.getElem?_range, hi]
  · intro n hn
    obtain ⟨m, rfl⟩ : ∃ m, n = 6 + m := ⟨n - 6, by omega⟩
    clear hn
    induction m with
    | zero => exact h6
    | succ m ih =>
      show min (backoffIter 1000 (6 + m) * (3 / 2)) 10000 = 10000
      rw [ih]
      norm_num [min_def]

/-- Witness for the amended C2: budget 2 all-PENDING run, first sleep and
the recurrence at 0. -/
theorem poll_backoff_witness :
    (pollForResult (fun _ => pendingStep) 2 1000).2.2.length = 2 ∧
    (pollForResult (fun _ => pendingStep) 2 1000).2.2[0]?
      = some (backoffIter 1000 0) ∧
    backoffIter 1000 1 = min (backoffIter 1000 0 * (3 / 2)) 10000 :=
  ⟨rfl, (poll_backoff (fun _ => pendingStep) 2).1 0 (by decide),
   (poll_backoff (fun _ => pendingStep) 2).2.1 0⟩

/-! ## C1: the precheck gate of the summarization machine -/

/-- C1: on a valid URL, a 200 precheck response with non-empty body whose
double-decoded envelope has a non-empty result makes `summarizeArxiv`
return the formatted cached summary having issued only the precheck
request — SUBMIT is never issued; a non-200 status or an empty body is a
cache miss, not a fault: the machine proceeds, and its first two requests
are precheck then submit. -/
theorem precheck_gates_submit (url : List Char) (env : SummarizeEnv)
    (hv : isValidArxivUrl (normalizeArxivUrl url) = true) :
    (env.precheck.status = 200 → env.precheck.text ≠ [] →
      ∀ envl, env.precheck.parsed = some envl → envl.result ≠ [] →
      ∀ obj, envl.inner = some obj →
        summarizeArxiv url env
          = (.cachedHit (formatSummary obj (normalizeArxivUrl url)),
             [.precheck])) ∧
    ((env.precheck.status ≠ 200 ∨ env.precheck.text = []) →
      (summarizeArxiv url env).2.take 2 = [.precheck, .submit]) := by
  constructor
  · intro h200 htext envl hpar hres obj hin
    simp only [summarizeArxiv, hv, if_true, if_pos (And.intro h200 htext),
      hpar, if_pos hres, hin]
  · intro hmiss
    have hcond : ¬(env.precheck.status = 200 ∧ env.precheck.text ≠ []) := by
      rcases hmiss with h | h
      · exact fun hc => h hc.1
      · exact fun hc => hc.2 h
    simp only [summarizeArxiv, hv, if_true, if_neg hcond]
    by_cases hs : env.submit.status = 202
    · rw [if_pos hs]
      cases hr : env.submit.requestId with
      | none => rfl
      | some rid =>
        exact List.take_left' rfl
    · rw [if_neg hs]
      rfl

/-- Witness for C1: a concrete hit environment yields the cached summary
with a one-request trace, and a concrete miss environment proceeds to
submit. -/
theorem precheck_gates_submit_witness :
    summarizeArxiv demoAbsUrl demoHitEnv
      = (.cachedHit (formatSummary demoSummaryObj (normalizeArxivUrl demoAbsUrl)),
         [.precheck]) ∧
    (summarizeArxiv demoAbsUrl demoMissEnv).2.take 2
      = [.precheck, .submit] :=
  ⟨(precheck_gates_submit demoAbsUrl demoHitEnv (by decide)).1
      rfl (by decide) _ rfl (by decide) _ rfl,
   (precheck_gates_submit demoAbsUrl demoMissEnv (by decide)).2
      (Or.inl (by decide))⟩

end ArxivPlugin
